import Mathlib

/-!
Shallow embedding of the xaevman/log repository (Go) for specification
checking.

The embedding covers:
* `LogBuffer` from `log.go` (list-backed bounded buffer of recent log
  messages, with a dirty flag);
* `FormatLogMsg` from `log.go` and `LogMsg.String` (ring-variant file)
  as fallible renderers (`Option`, `none` modelling a Go panic);
* `BufferedLog` from `flog/BufferedLog.go` (pending write buffer, message
  count, backing file, close/flush path);
* `DirectLog` from `flog/DirectLog.go` and `Rotate`/`New` from
  `flog/flog.go`.

Go strings are modelled as Lean `String`s; a formatted timestamp is held
as an opaque `String` field (time formatting is an external pure utility
per the spec).  Machine `int` fields that the code compares are modelled
as `Int`; the `uint` message counter is modelled as `Nat` reduced mod
2^64.  Fallible operations (Go panics: out-of-range indexing, I/O on a
closed file) return `Option`.  Concurrency (locks, goroutines, channel
signalling) is modelled sequentially: lock-protected bodies are atomic
steps, and the flush-now channel send attempted by `print` is recorded
as a `Bool` result rather than as a state change, matching the fact that
the send happens on a separate goroutine and never alters logger state.
-/

/-! ## LogBuffer (src/log.go, list-backed variant) -/

/-- State of `LogBuffer` from `log.go`.  The Go struct stores a
`container/list` `*list.List`; we model it as a `List String` whose head
is the list front (the most recently pushed message, since `Print` uses
`PushFront`). -/
structure LogBuffer where
  changed : Bool
  enabled : Bool
  logs : List String
  maxSize : Int
  deriving Repr, DecidableEq

/-- `NewLogBuffer` from `log.go`: enabled, empty list, given capacity. -/
def NewLogBuffer (maxSize : Int) : LogBuffer :=
  { changed := false, enabled := true, logs := [], maxSize := maxSize }

/-- `LogBuffer.HasChanged`: lock-protected read of the dirty flag.  It
returns the flag and leaves the state untouched; we return the pair to
make the absence of mutation a statement rather than a typing accident. -/
def LogBuffer.HasChanged (b : LogBuffer) : Bool × LogBuffer :=
  (b.changed, b)

/-- `LogBuffer.Print` from `log.go`: no-op when disabled; otherwise
push the message at the front, evict the back (oldest) element when the
length exceeds `maxSize`, and set `changed`. -/
def LogBuffer.Print (b : LogBuffer) (msg : String) : LogBuffer :=
  if !b.enabled then b
  else
    let l := msg :: b.logs
    let l' := if (l.length : Int) > b.maxSize then l.dropLast else l
    { b with logs := l', changed := true }

/-- `LogBuffer.ReadAll` from `log.go`: returns the messages from front to
back (newest first, exactly the order of our `logs` list) and clears the
dirty flag. -/
def LogBuffer.ReadAll (b : LogBuffer) : List String × LogBuffer :=
  (b.logs, { b with changed := false })

/-- `LogBuffer.SetEnabled` from `log.go`. -/
def LogBuffer.SetEnabled (b : LogBuffer) (enabled : Bool) : LogBuffer :=
  { b with enabled := enabled }

/-- Removing `k` elements from the back of the Go `container/list`, one
`Remove(Back())` at a time.  Calling `Remove` with a `nil` element (back
of an empty list) dereferences a nil pointer in Go, modelled as `none`. -/
def removeBackN : List String → Nat → Option (List String)
  | l, 0 => some l
  | [], _ + 1 => none
  | l, k + 1 => removeBackN l.dropLast k

/-- `LogBuffer.SetMaxSize` from `log.go`: compute `diff = maxSize - len`;
when negative, remove the back (oldest) element `-diff` times; finally
store the new `maxSize`. -/
def LogBuffer.SetMaxSize (b : LogBuffer) (maxSize : Int) : Option LogBuffer :=
  let diff : Int := maxSize - (b.logs.length : Int)
  if diff < 0 then
    (removeBackN b.logs (-diff).toNat).map fun l =>
      { b with logs := l, maxSize := maxSize }
  else
    some { b with maxSize := maxSize }

/-- Fold a list of messages through `LogBuffer.Print`. -/
def LogBuffer.PrintList (b : LogBuffer) (msgs : List String) : LogBuffer :=
  msgs.foldl LogBuffer.Print b

/-- Operations a caller can perform on a `LogBuffer` through the three
read/insert entry points discussed by the dirty-flag contract. -/
inductive LBOp where
  | print (msg : String)
  | readAll
  | hasChanged
  deriving Repr, DecidableEq

/-- State effect of one `LogBuffer` operation (`ReadAll` and `HasChanged`
also return values; only the state component matters for the flag). -/
def LogBuffer.applyOp (b : LogBuffer) : LBOp → LogBuffer
  | .print msg => b.Print msg
  | .readAll => b.ReadAll.2
  | .hasChanged => b.HasChanged.2

/-- Run a sequence of `LogBuffer` operations from a given state. -/
def LogBuffer.runOps (b : LogBuffer) (ops : List LBOp) : LogBuffer :=
  ops.foldl LogBuffer.applyOp b

/-! ## Log message rendering (src/log.go `FormatLogMsg`, and the ring
variant's `LogMsg.String`) -/

/-- Whether a Go string's last byte is the newline byte, the test
`msg[len(msg)-1] == '\n'` performs on a non-empty string.  (`'\n'` is
ASCII, so last-byte and last-char comparison agree on UTF-8 text.) -/
def endsWithNewline (s : String) : Bool :=
  match s.data.getLast? with
  | some c => c == '\n'
  | none => false

/-- `LogMsg` from the ring-variant `log.go`: timestamp, name tag,
optional source file/line, and message text.  The timestamp is carried
in its rendered form (`Timestamp.Format(timeFormat)` is an external pure
utility per the spec). -/
structure LogMsg where
  timestamp : String
  name : String
  file : String
  line : Int
  message : String
  deriving Repr, DecidableEq

/-- The `" <file:line> "` fragment `LogMsg.String` accumulates in its
`bytes.Buffer`: present when `File` is non-empty, with the `:line` part
present when `Line` is non-zero. -/
def LogMsg.locString (m : LogMsg) : String :=
  if m.file ≠ "" then
    " <" ++ m.file ++ (if m.line ≠ 0 then ":" ++ toString m.line else "") ++ "> "
  else ""

/-- `LogMsg.String` from the ring-variant `log.go` (named `render` here
because `String` is the Lean string type): produces
`"<ts> [<NAME>]<loc> <msg>"`, appending a final newline unless the
message already ends with one.  The test `this.Message[len(this.Message)-1]`
panics (out-of-range index) on an empty message, modelled as `none`. -/
def LogMsg.render (m : LogMsg) : Option String :=
  if m.message = "" then none
  else
    some (m.timestamp ++ " [" ++ m.name.toUpper ++ "]" ++ m.locString ++ " "
      ++ m.message ++ (if endsWithNewline m.message then "" else "\n"))

/-- `FormatLogMsg` from `src/log.go`.  `msg` is the message after the
`fmt.Sprintf` step (equal to `format` when no varargs are given); `ts`
models `time.Now().Format(timeFormat)` and `fileInfo` the
`" <file:line>"` string from `runtime.Caller` (empty when the caller
lookup fails).  The index `msg[len(msg)-1]` panics on an empty message,
modelled as `none`. -/
def FormatLogMsg (ts name fileInfo msg : String) : Option String :=
  if msg = "" then none
  else
    some (ts ++ " [" ++ name.toUpper ++ "]" ++ fileInfo ++ " "
      ++ msg ++ (if endsWithNewline msg then "" else "\n"))

/-! ## BufferedLog (src/flog/BufferedLog.go)

The write buffer (`bytes.Buffer` fed through a `log.Logger`) is modelled
as a `List String` of rendered lines; the backing file's contents as a
`List String` plus an open/closed flag for the handle.  The `uint`
message counter is a `Nat` reduced mod `2^64`.  The flush-now channel
send attempted by `print` runs on its own goroutine and never changes
logger state; it is reported as the `Bool` component of `print`'s
result.  I/O errors (`io.Copy`/`Sync` on a closed handle) make
`flushLogs` panic in Go, modelled as `none`. -/

/-- Modulus of Go's `uint` (64-bit). -/
def uintMod : Nat := 2 ^ 64

structure BufferedLog where
  baseDir : String
  buffer : List String
  count : Nat
  enabled : Bool
  file : List String
  fileOpen : Bool
  flushSec : Int
  hasClosed : Bool
  name : String
  deriving Repr, DecidableEq

/-- The rendered `"==== Close log ===="` marker record emitted by
`Close` via `NewLogMsg(name, ...)`; timestamp and caller location are
ambient externals, so only the name tag and text are kept.  No claim
inspects this text, only its presence and position. -/
def closeMarker (name : String) : String :=
  "[" ++ name ++ "] ==== Close log ===="

/-- The rendered `"==== Log init ===="` marker record printed by `New`. -/
def initMarker (name : String) : String :=
  "[" ++ name ++ "] ==== Log init ===="

/-- Internal `BufferedLog.print`: increments the message counter,
appends the rendered record to the write buffer (the process-level
`log.Print` mirror has no logger state), and, when the counter exceeds
100, attempts a flush-now channel send from a fresh goroutine (bounded
by a 5-second timeout).  The `Bool` result records whether that signal
attempt was issued. -/
def BufferedLog.print (b : BufferedLog) (msg : String) : BufferedLog × Bool :=
  let c := (b.count + 1) % uintMod
  ({ b with count := c, buffer := b.buffer ++ [msg] }, decide (c > 100))

/-- Public `BufferedLog.Print`: drops the record when not enabled,
otherwise defers to the internal `print`. -/
def BufferedLog.Print (b : BufferedLog) (msg : String) : BufferedLog × Bool :=
  if !b.enabled then (b, false) else b.print msg

/-- Fold a list of records through the public `Print`. -/
def BufferedLog.PrintList (b : BufferedLog) (msgs : List String) : BufferedLog :=
  msgs.foldl (fun a m => (a.Print m).1) b

/-- `BufferedLog.flushLogs`: `io.Copy` drains the write buffer into the
backing file (appending its full contents), `Sync` forces durability
(no state change in the model), and the message counter is reset.
Either call panics on a closed handle (`none`). -/
def BufferedLog.flushLogs (b : BufferedLog) : Option BufferedLog :=
  if b.fileOpen then
    some { b with file := b.file ++ b.buffer, buffer := [], count := 0 }
  else
    none

/-- `BufferedLog.Close`: returns immediately when already closed;
otherwise marks the instance closed, prints the close-marker record
(via the internal `print`, bypassing the enabled check), signals the
flush goroutine to stop (`shutdown.Start`, no logger state), flushes,
and closes the file handle.  The `WaitForTimeout` acknowledgment branch
only prints an extra diagnostic when the background goroutine fails to
acknowledge in time; the sequential model takes the prompt path. -/
def BufferedLog.Close (b : BufferedLog) : Option BufferedLog :=
  if b.hasClosed then some b
  else
    let b1 := { b with hasClosed := true }
    let b2 := (b1.print (closeMarker b.name)).1
    match b2.flushLogs with
    | none => none
    | some b3 => some { b3 with fileOpen := false }

/-! ## DirectLog (src/flog/DirectLog.go) and rotation (src/flog/flog.go) -/

/-- `DirectLog`: unbuffered file logger; its `log.Logger` writes every
record straight to the backing file. -/
structure DirectLog where
  baseDir : String
  enabled : Bool
  file : List String
  fileOpen : Bool
  name : String
  deriving Repr, DecidableEq

/-- Internal `DirectLog.print`: writes the rendered record to the
backing file (a write error on a closed handle is discarded by
`log.Logger.Print`, so the model leaves the file unchanged then). -/
def DirectLog.print (d : DirectLog) (msg : String) : DirectLog :=
  if d.fileOpen then { d with file := d.file ++ [msg] } else d

/-- Public `DirectLog.Print`: drops the record when not enabled. -/
def DirectLog.Print (d : DirectLog) (msg : String) : DirectLog :=
  if !d.enabled then d else d.print msg

/-- `DirectLog.Close`: disables the instance, writes the close marker
directly to the file, syncs and closes the handle. -/
def DirectLog.Close (d : DirectLog) : DirectLog :=
  let d1 := { d with enabled := false }
  let d2 := d1.print (closeMarker d.name)
  { d2 with fileOpen := false }

/-- The two `FLog` implementations enumerated in `flog.go`
(`BufferedFile`/`DirectFile`). -/
inductive LogKind where
  | BufferedFile
  | DirectFile
  deriving Repr, DecidableEq

/-- An `FLog` handle: either a `BufferedLog` or a `DirectLog`. -/
inductive FLog where
  | buffered (b : BufferedLog)
  | direct (d : DirectLog)
  deriving Repr, DecidableEq

def FLog.kind : FLog → LogKind
  | .buffered _ => .BufferedFile
  | .direct _ => .DirectFile

/-- `FLog.Name` (the friendly name, also the file's base name). -/
def FLog.Name : FLog → String
  | .buffered b => b.name
  | .direct d => d.name

/-- `FLog.BaseDir`. -/
def FLog.BaseDir : FLog → String
  | .buffered b => b.baseDir
  | .direct d => d.baseDir

/-- Contents of the backing file behind a handle. -/
def FLog.fileContents : FLog → List String
  | .buffered b => b.file
  | .direct d => d.file

/-- Flush interval of the underlying instance (only meaningful for the
buffered kind; `DirectLog` has none, reported as the default). -/
def FLog.flushSec : FLog → Int
  | .buffered b => b.flushSec
  | .direct _ => 5

/-- `FLog.Close` dispatch. -/
def FLog.Close : FLog → Option FLog
  | .buffered b => b.Close.map .buffered
  | .direct d => some (.direct d.Close)

/-- Default flush interval from `flog.go`. -/
def DefaultFlushIntervalSec : Int := 5

/-- `New` from `flog.go`: opens `<baseDir>/<name>.log` for
read/write/append/create (`prev` is the file's prior contents, `[]`
when the file did not exist), builds the requested implementation
(enabled, default flush interval, fresh buffer/counters), starts the
flush goroutine (no state in the sequential model), and prints the
init-marker record through the public `Print`. -/
def New (name baseDir : String) (logType : LogKind) (prev : List String) : FLog :=
  match logType with
  | .BufferedFile =>
    let b : BufferedLog :=
      { baseDir := baseDir, buffer := [], count := 0, enabled := true,
        file := prev, fileOpen := true, flushSec := DefaultFlushIntervalSec,
        hasClosed := false, name := name }
    .buffered (b.Print (initMarker name)).1
  | .DirectFile =>
    let d : DirectLog :=
      { baseDir := baseDir, enabled := true, file := prev,
        fileOpen := true, name := name }
    .direct (d.Print (initMarker name))

/-- The archive path `path.Join(baseDir, "old", "%d%d%d-<name>.log")`
built by `Rotate` (`path.Join` concatenates with `/`; `%d` prints the
year, numeric month, and day without padding). -/
def archivePath (baseDir name : String) (y mo d : Nat) : String :=
  baseDir ++ "/old/" ++ toString y ++ toString mo ++ toString d
    ++ "-" ++ name ++ ".log"

/-- `Rotate` from `flog.go`: closes the given logger, ensures the `old/`
archive directory, renames the backing file to the date-stamped archive
path (after which `<baseDir>/<name>.log` no longer exists, so `New`
creates it empty), and builds a new logger of the same kind at the
original location, copying the flush interval from the old instance in
the buffered case.  The result carries the new handle together with the
archive file (path and contents moved by `os.Rename`); `none` models a
panic out of the close path. -/
def Rotate (l : FLog) (y mo d : Nat) : Option (FLog × String × List String) :=
  match l.Close with
  | none => none
  | some closed =>
    let arch := (archivePath l.BaseDir l.Name y mo d, closed.fileContents)
    let nl := New l.Name l.BaseDir l.kind []
    let nl2 : FLog :=
      match l, nl with
      | .buffered old, .buffered nb => .buffered { nb with flushSec := old.flushSec }
      | _, _ => nl
    some (nl2, arch)

/-! ## Spec-side measures and concrete sample states -/

/-- Accumulated byte size of the pending write buffer (number of bytes
held by the `bytes.Buffer`), the quantity the spec's size-threshold
sentences talk about.  The code never computes it. -/
def bufferBytes (b : BufferedLog) : Nat :=
  (b.buffer.map String.length).sum

/-- The spec's "fixed threshold (design constant, e.g. 64 KiB)".  The
code has no byte threshold; this constant exists only to state the
spec's sentence so it can be compared with the code. -/
def flushThresholdBytes : Nat := 64 * 1024

/-- A freshly constructed buffered logger, the state `New` produces for
`New("info", "logs", BufferedFile)` on a previously absent file. -/
def sampleBuffered : BufferedLog :=
  { baseDir := "logs", buffer := [initMarker "info"], count := 1,
    enabled := true, file := [], fileOpen := true, flushSec := 5,
    hasClosed := false, name := "info" }

/-- A single 70000-byte record (larger than the spec's 64 KiB
threshold). -/
def hugeLine : String := String.mk (List.replicate 70000 'a')

/-- A logger whose pending buffer already exceeds 64 KiB while its
message counter is far below 100. -/
def overSized : BufferedLog :=
  { sampleBuffered with buffer := [hugeLine], count := 0 }

/-- A logger whose message counter sits exactly at 100. -/
def atCount100 : BufferedLog :=
  { sampleBuffered with count := 100 }

/-! ### Helper lemmas about `LogBuffer.Print` -/

lemma LogBuffer.print_logs_take (b : LogBuffer) (m : String) (n : Nat)
    (hb : b.enabled = true) (hmax : b.maxSize = (n : Int))
    (hlen : b.logs.length ≤ n) :
    (b.Print m).logs = (m :: b.logs).take n := by
  simp only [LogBuffer.Print, hb, Bool.not_true, Bool.false_eq_true, if_false, hmax]
  rcases Nat.lt_or_ge b.logs.length n with hlt | hge
  · rw [if_neg, List.take_of_length_le (by simpa using hlt)]
    simp only [List.length_cons]
    push_cast
    omega
  · have heq : b.logs.length = n := Nat.le_antisymm hlen hge
    rw [if_pos, List.dropLast_eq_take, List.length_cons, heq]
    · simp
    · simp only [List.length_cons, heq]
      push_cast
      omega

lemma LogBuffer.print_enabled (b : LogBuffer) (m : String) :
    (b.Print m).enabled = b.enabled := by
  unfold LogBuffer.Print
  split <;> rfl

lemma LogBuffer.print_maxSize (b : LogBuffer) (m : String) :
    (b.Print m).maxSize = b.maxSize := by
  unfold LogBuffer.Print
  split <;> rfl

lemma take_append_take (n : Nat) (y z : List String) :
    (y ++ z.take n).take n = (y ++ z).take n := by
  rw [List.take_append_eq_append_take, List.take_append_eq_append_take,
    List.take_take]
  congr 1
  rw [Nat.min_eq_left (Nat.sub_le n y.length)]

lemma LogBuffer.printList_invariant (n : Nat) :
    ∀ (msgs : List String) (b : LogBuffer), b.enabled = true →
    b.maxSize = (n : Int) → b.logs.length ≤ n →
    (b.PrintList msgs).logs = (msgs.reverse ++ b.logs).take n ∧
    (b.PrintList msgs).enabled = true ∧
    (b.PrintList msgs).maxSize = (n : Int)
  | [], b, hb, hmax, hlen => by
    simpa [LogBuffer.PrintList, List.take_of_length_le hlen] using ⟨hb, hmax⟩
  | m :: ms, b, hb, hmax, hlen => by
    have hstep : (b.Print m).logs = (m :: b.logs).take n :=
      LogBuffer.print_logs_take b m n hb hmax hlen
    have hen : (b.Print m).enabled = true := by
      rw [LogBuffer.print_enabled]; exact hb
    have hmx : (b.Print m).maxSize = (n : Int) := by
      rw [LogBuffer.print_maxSize]; exact hmax
    have hln : (b.Print m).logs.length ≤ n := by
      rw [hstep, List.length_take]; exact Nat.min_le_left _ _
    have ih := LogBuffer.printList_invariant n ms (b.Print m) hen hmx hln
    have hfold : b.PrintList (m :: ms) = (b.Print m).PrintList ms := rfl
    refine ⟨?_, by rw [hfold]; exact ih.2.1, by rw [hfold]; exact ih.2.2⟩
    rw [hfold, ih.1, hstep, take_append_take]
    simp [List.append_assoc]

lemma removeBackN_eq_take :
    ∀ (j : Nat) (l : List String), j ≤ l.length →
    removeBackN l j = some (l.take (l.length - j)) := by
  intro j
  induction j with
  | zero => intro l _; simp [removeBackN, List.take_length]
  | succ j ih =>
    intro l h
    cases l with
    | nil => simp at h
    | cons a as =>
      have hlend : (a :: as).dropLast.length = (a :: as).length - 1 :=
        List.length_dropLast _
      have hj : j ≤ (a :: as).dropLast.length := by
        rw [hlend]; simp only [List.length_cons] at h ⊢; omega
      have hstep : removeBackN (a :: as) (j + 1)
          = removeBackN (a :: as).dropLast j := rfl
      rw [hstep, ih _ hj, hlend, List.dropLast_eq_take, List.take_take]
      congr 1
      have h1 : (a :: as).length - 1 - j ≤ (a :: as).length - 1 := Nat.sub_le _ _
      rw [Nat.min_eq_left h1]
      simp only [List.length_cons]
      congr 1
      omega

/-! ## Claim C1 -/

/-- Claim C1, counterexample: with capacity 2 and prints `a, b, c`,
`ReadAll` returns `[c, b]` — the most recent two messages, but newest
first, not in insertion order `[b, c]` as the claim states. -/
theorem C1_counterexample :
    (((NewLogBuffer 2).PrintList ["a", "b", "c"]).ReadAll).1 = ["c", "b"] ∧
    (((NewLogBuffer 2).PrintList ["a", "b", "c"]).ReadAll).1 ≠ ["b", "c"] := by
  decide

/-- Claim C1 (amended): for every capacity `n` and every sequence of
more than `n` prints on a fresh enabled `LogBuffer` of capacity `n`,
`ReadAll` returns exactly `n` records, namely the most recent `n`
printed messages in reverse insertion order (newest first). -/
theorem C1_bounded_buffer (n : Nat) (msgs : List String) (h : n < msgs.length) :
    (((NewLogBuffer (n : Int)).PrintList msgs).ReadAll).1.length = n ∧
    (((NewLogBuffer (n : Int)).PrintList msgs).ReadAll).1
      = (msgs.drop (msgs.length - n)).reverse := by
  have inv := LogBuffer.printList_invariant n msgs (NewLogBuffer (n : Int))
    rfl rfl (by simp [NewLogBuffer])
  have hlogs : (((NewLogBuffer (n : Int)).PrintList msgs).ReadAll).1
      = msgs.reverse.take n := by
    rw [show (((NewLogBuffer (n : Int)).PrintList msgs).ReadAll).1
        = ((NewLogBuffer (n : Int)).PrintList msgs).logs from rfl, inv.1]
    simp [NewLogBuffer]
  constructor
  · rw [hlogs, List.length_take, List.length_reverse]
    exact Nat.min_eq_left (Nat.le_of_lt h)
  · have h3 : (msgs.reverse.take n).reverse = msgs.drop (msgs.length - n) := by
      rw [List.reverse_take]
      simp
    rw [hlogs, ← h3, List.reverse_reverse]

/-- Witness for `C1_bounded_buffer` at capacity 1 with prints `a, b`. -/
theorem C1_witness :
    (((NewLogBuffer ((1 : Nat) : Int)).PrintList ["a", "b"]).ReadAll).1.length = 1 ∧
    (((NewLogBuffer ((1 : Nat) : Int)).PrintList ["a", "b"]).ReadAll).1
      = ((["a", "b"] : List String).drop ((["a", "b"] : List String).length - 1)).reverse :=
  C1_bounded_buffer 1 ["a", "b"] (by decide)

/-! ## Claim C9 -/

/-- Claim C9: `SetMaxSize n` (for a capacity `n ≥ 0`) stores the new
capacity; when the buffer holds `k > n` entries it evicts exactly
`k - n` oldest entries, leaving exactly the newest `n` in their
original order (`take n.toNat` of the newest-first list); when `k ≤ n`
the contents are unchanged. -/
theorem C9_setMaxSize (b : LogBuffer) (n : Int) (hn : 0 ≤ n) :
    ((b.logs.length : Int) ≤ n →
      b.SetMaxSize n = some { b with maxSize := n }) ∧
    (n < (b.logs.length : Int) →
      b.SetMaxSize n = some { b with logs := b.logs.take n.toNat, maxSize := n } ∧
      n.toNat < b.logs.length ∧
      (b.logs.take n.toNat).length = n.toNat) := by
  constructor
  · intro hle
    simp only [LogBuffer.SetMaxSize]
    rw [if_neg (by omega)]
  · intro hlt
    have hlen : n.toNat < b.logs.length := by omega
    refine ⟨?_, hlen, ?_⟩
    · simp only [LogBuffer.SetMaxSize]
      rw [if_pos (by omega)]
      have hj : (-(n - (b.logs.length : Int))).toNat = b.logs.length - n.toNat := by
        omega
      rw [hj, removeBackN_eq_take _ _ (Nat.sub_le _ _)]
      have hix : b.logs.length - (b.logs.length - n.toNat) = n.toNat := by omega
      rw [hix, Option.map_some']
    · rw [List.length_take]
      exact Nat.min_eq_left (Nat.le_of_lt hlen)

/-- Witness for `C9_setMaxSize`: shrinking a 3-entry buffer to
capacity 2 keeps the newest two entries. -/
theorem C9_witness :
    (({ changed := false, enabled := true, logs := ["c", "b", "a"],
        maxSize := 3 } : LogBuffer).SetMaxSize 2
      = some { changed := false, enabled := true,
               logs := (["c", "b", "a"] : List String).take (2 : Int).toNat,
               maxSize := 2 }) ∧
    (2 : Int).toNat < (["c", "b", "a"] : List String).length ∧
    ((["c", "b", "a"] : List String).take (2 : Int).toNat).length = (2 : Int).toNat :=
  (C9_setMaxSize { changed := false, enabled := true, logs := ["c", "b", "a"],
                   maxSize := 3 } 2 (by decide)).2 (by decide)

/-! ## Claim C3 -/

/-- Claim C3, counterexample: a freshly constructed logger's pending
buffer (one init-marker line) is far below any 64 KiB threshold and its
message count is at most 100, yet `flushLogs` changes the backing file —
the flush is not a below-threshold no-op. -/
theorem C3_counterexample :
    bufferBytes sampleBuffered < flushThresholdBytes ∧
    sampleBuffered.count ≤ 100 ∧
    (sampleBuffered.flushLogs.map BufferedLog.file) = some [initMarker "info"] ∧
    [initMarker "info"] ≠ sampleBuffered.file := by
  decide

/-- Claim C3 (amended): `flushLogs` is unconditional — whatever the
buffer's size, it appends the buffer's full contents to the backing
file, forces a durability sync, empties the write buffer and resets the
message counter (and it panics when the file handle is closed). -/
theorem C3_flush_unconditional (b : BufferedLog) (hf : b.fileOpen = true) :
    b.flushLogs
      = some { b with file := b.file ++ b.buffer, buffer := [], count := 0 } := by
  simp [BufferedLog.flushLogs, hf]

/-- Witness for `C3_flush_unconditional` on the fresh sample logger. -/
theorem C3_witness :
    sampleBuffered.flushLogs
      = some { sampleBuffered with
               file := sampleBuffered.file ++ sampleBuffered.buffer,
               buffer := [], count := 0 } :=
  C3_flush_unconditional sampleBuffered rfl

/-! ## Claim C7 -/

/-- Claim C7: `Close` is idempotent — a second `Close` on any instance
(whatever path the first took) adds no further effect to the logger
state or the backing file. -/
theorem C7_close_idempotent (b : BufferedLog) :
    b.Close.bind BufferedLog.Close = b.Close := by
  by_cases hb : b.hasClosed <;> by_cases hf : b.fileOpen <;>
    simp [BufferedLog.Close, BufferedLog.print, BufferedLog.flushLogs, hb, hf]

/-! ## Claim C5 -/

/-- The state `Close` leaves the fresh sample logger in: closed handle,
marker flushed — but `enabled` still `true`. -/
def sampleClosed : BufferedLog :=
  { baseDir := "logs", buffer := [], count := 0, enabled := true,
    file := [initMarker "info", closeMarker "info"], fileOpen := false,
    flushSec := 5, hasClosed := true, name := "info" }

/-- Claim C5 is right and the code is wrong: `Close`'s own doc comment
says it "disables the BufferedLog instance", and both earlier revisions
of the file set `enabled` to `false` in `Close`, but the current `Close`
never clears `enabled`.  After `Close` returns, `enabled` is still
`true`, so a subsequent `Print` is *not* dropped: it appends the record
to the write buffer (which, with the flush loop stopped and the file
closed, can never reach the file). -/
theorem C5_print_after_close_not_dropped :
    sampleBuffered.Close = some sampleClosed ∧
    sampleClosed.enabled = true ∧
    (sampleClosed.Print "x").1.buffer = ["x"] ∧
    sampleClosed.buffer = [] := by
  refine ⟨by decide, rfl, by decide, rfl⟩

/-! ## Claim C6 -/

/-- Claim C6, counterexample: a pending buffer of 70000 bytes exceeds
the claimed 64 KiB size threshold, yet `Print` issues no flush signal,
because the code's trigger is a *message count* above 100, not a byte
size. -/
theorem C6_counterexample :
    flushThresholdBytes < bufferBytes (overSized.Print "m").1 ∧
    (overSized.Print "m").2 = false := by
  constructor
  · have hlen2 : hugeLine.length = 70000 := by
      rw [hugeLine, show (String.mk (List.replicate 70000 'a')).length
          = (List.replicate 70000 'a').length from rfl, List.length_replicate]
    have hbuf : (overSized.Print "m").1.buffer = [hugeLine, "m"] := rfl
    have h1 : bufferBytes (overSized.Print "m").1 = 70000 + ("m".length + 0) := by
      simp only [bufferBytes, hbuf, List.map_cons, List.map_nil, List.sum_cons,
        List.sum_nil, hlen2]
    rw [h1]
    decide
  · decide

/-- Claim C6 (amended): the flush-now signal is attempted exactly when
the number of records accumulated since the last flush exceeds 100
(the code's design constant), not when a byte size exceeds 64 KiB; the
attempt runs on its own goroutine with a 5-second timeout, so `Print`
itself never blocks on it. -/
theorem C6_flush_signal (b : BufferedLog) (msg : String)
    (he : b.enabled = true) (hc : b.count + 1 < uintMod) :
    ((b.Print msg).2 = true ↔ 100 < b.count + 1) := by
  simp [BufferedLog.Print, BufferedLog.print, he, Nat.mod_eq_of_lt hc]

/-- Witness for `C6_flush_signal`: the 101st record since the last
flush triggers the signal. -/
theorem C6_witness : (atCount100.Print "m").2 = true :=
  (C6_flush_signal atCount100 "m" rfl (by decide)).mpr (by decide)

/-! ## Claim C2 -/

lemma BufferedLog.printList_spec :
    ∀ (msgs : List String) (b : BufferedLog), b.enabled = true →
    (b.PrintList msgs).buffer = b.buffer ++ msgs ∧
    (b.PrintList msgs).enabled = true ∧
    (b.PrintList msgs).hasClosed = b.hasClosed ∧
    (b.PrintList msgs).fileOpen = b.fileOpen ∧
    (b.PrintList msgs).file = b.file ∧
    (b.PrintList msgs).name = b.name
  | [], b, hb => by
    simp [BufferedLog.PrintList, hb]
  | m :: ms, b, hb => by
    have hstep : (b.Print m).1
        = { b with count := (b.count + 1) % uintMod, buffer := b.buffer ++ [m] } := by
      simp [BufferedLog.Print, BufferedLog.print, hb]
    have hen : (b.Print m).1.enabled = true := by rw [hstep]; exact hb
    have ih := BufferedLog.printList_spec ms (b.Print m).1 hen
    have hfold : b.PrintList (m :: ms) = ((b.Print m).1).PrintList ms := rfl
    rw [hfold]
    refine ⟨?_, ih.2.1, ?_, ?_, ?_, ?_⟩
    · rw [ih.1, hstep]
      simp
    · rw [ih.2.2.1, hstep]
    · rw [ih.2.2.2.1, hstep]
    · rw [ih.2.2.2.2.1, hstep]
    · rw [ih.2.2.2.2.2, hstep]

lemma BufferedLog.close_spec (b : BufferedLog) (hc : b.hasClosed = false)
    (hf : b.fileOpen = true) :
    b.Close = some
      { b with hasClosed := true, fileOpen := false, count := 0,
               buffer := [],
               file := b.file ++ (b.buffer ++ [closeMarker b.name]) } := by
  simp [BufferedLog.Close, BufferedLog.print, BufferedLog.flushLogs, hc, hf]

/-- Claim C2: printing `msgs` on an enabled, open, not-yet-closed
`BufferedLog` with no intervening flush, then calling `Close`, leaves
the backing file holding its previous contents, the previously pending
buffer, all printed records in print order, then the close marker — in
particular all printed records are present, contiguous and in order. -/
theorem C2_close_drains (b : BufferedLog) (msgs : List String)
    (he : b.enabled = true) (hc : b.hasClosed = false) (hf : b.fileOpen = true) :
    ∃ t, (b.PrintList msgs).Close = some t ∧
      t.file = b.file ++ b.buffer ++ msgs ++ [closeMarker b.name] ∧
      ∃ pre post, t.file = pre ++ msgs ++ post := by
  obtain ⟨hbuf, hen, hcl, hfo, hfile, hname⟩ := BufferedLog.printList_spec msgs b he
  have hclose := BufferedLog.close_spec (b.PrintList msgs)
    (by rw [hcl]; exact hc) (by rw [hfo]; exact hf)
  refine ⟨_, hclose, ?_, b.file ++ b.buffer, [closeMarker b.name], ?_⟩ <;>
    · show (b.PrintList msgs).file
          ++ ((b.PrintList msgs).buffer ++ [closeMarker (b.PrintList msgs).name]) = _
      rw [hfile, hbuf, hname]
      simp [List.append_assoc]

/-- Witness for `C2_close_drains` on the fresh sample logger with two
records. -/
theorem C2_witness :
    ∃ t, (sampleBuffered.PrintList ["r1", "r2"]).Close = some t ∧
      t.file = sampleBuffered.file ++ sampleBuffered.buffer ++ ["r1", "r2"]
        ++ [closeMarker sampleBuffered.name] ∧
      ∃ pre post, t.file = pre ++ ["r1", "r2"] ++ post :=
  C2_close_drains sampleBuffered ["r1", "r2"] rfl rfl rfl

/-! ## Claim C4 -/

lemma append_singleton_inj {α : Type} {l₁ l₂ : List α} {a b : α}
    (h : l₁ ++ [a] = l₂ ++ [b]) : l₁ = l₂ ∧ a = b := by
  constructor
  · have h2 := congrArg List.dropLast h
    simpa [List.dropLast_concat] using h2
  · have h2 := congrArg List.getLast? h
    rw [List.getLast?_append_of_ne_nil _ (by simp),
      List.getLast?_append_of_ne_nil _ (by simp)] at h2
    simpa using h2

lemma LogBuffer.applyOp_enabled (b : LogBuffer) (op : LBOp) :
    (b.applyOp op).enabled = b.enabled := by
  cases op <;>
    simp [LogBuffer.applyOp, LogBuffer.ReadAll, LogBuffer.HasChanged,
      LogBuffer.print_enabled]

lemma LogBuffer.runOps_enabled :
    ∀ (ops : List LBOp) (b : LogBuffer), (b.runOps ops).enabled = b.enabled
  | [], _ => rfl
  | op :: ops, b => by
    have h1 : b.runOps (op :: ops) = (b.applyOp op).runOps ops := rfl
    rw [h1, LogBuffer.runOps_enabled ops, LogBuffer.applyOp_enabled]

lemma LogBuffer.runOps_changed (n : Int) (ops : List LBOp) :
    (((NewLogBuffer n).runOps ops).changed = true ↔
      ∃ pre m post, ops = pre ++ LBOp.print m :: post ∧ LBOp.readAll ∉ post) := by
  induction ops using List.reverseRecOn with
  | nil =>
    constructor
    · intro h
      simp [LogBuffer.runOps, NewLogBuffer] at h
    · rintro ⟨pre, m, post, heq, -⟩
      exact absurd heq (by simp)
  | append_singleton ops op ih =>
    have hrun : (NewLogBuffer n).runOps (ops ++ [op])
        = ((NewLogBuffer n).runOps ops).applyOp op := by
      simp [LogBuffer.runOps, List.foldl_append]
    cases op with
    | print m0 =>
      have hen : ((NewLogBuffer n).runOps ops).enabled = true :=
        LogBuffer.runOps_enabled ops (NewLogBuffer n)
      constructor
      · intro _
        exact ⟨ops, m0, [], rfl, by simp⟩
      · intro _
        rw [hrun]
        simp [LogBuffer.applyOp, LogBuffer.Print, hen]
    | readAll =>
      rw [hrun]
      constructor
      · intro h
        simp [LogBuffer.applyOp, LogBuffer.ReadAll] at h
      · rintro ⟨pre, m, post, heq, hpost⟩
        exfalso
        rcases List.eq_nil_or_concat post with hpe | ⟨post', x, hpx⟩
        · subst hpe
          have h2 := (append_singleton_inj heq).2
          exact LBOp.noConfusion h2
        · subst hpx
          have heq2 : ops ++ [LBOp.readAll]
              = (pre ++ LBOp.print m :: post') ++ [x] := by
            rw [heq]
            simp
          have hx := (append_singleton_inj heq2).2
          exact hpost (by rw [← hx]; simp)
    | hasChanged =>
      rw [hrun]
      have hid : ((NewLogBuffer n).runOps ops).applyOp LBOp.hasChanged
          = (NewLogBuffer n).runOps ops := rfl
      rw [hid]
      constructor
      · intro h
        obtain ⟨pre, m, post, heq, hpost⟩ := ih.mp h
        refine ⟨pre, m, post ++ [LBOp.hasChanged], by rw [heq]; simp, ?_⟩
        intro hmem
        rcases List.mem_append.mp hmem with hmem' | hmem'
        · exact hpost hmem'
        · simp at hmem'
      · rintro ⟨pre, m, post, heq, hpost⟩
        apply ih.mpr
        rcases List.eq_nil_or_concat post with hpe | ⟨post', x, hpx⟩
        · subst hpe
          have h2 := (append_singleton_inj heq).2
          exact absurd h2 (by simp)
        · subst hpx
          have heq2 : ops ++ [LBOp.hasChanged]
              = (pre ++ LBOp.print m :: post') ++ [x] := by
            rw [heq]
            simp
          obtain ⟨hl, -⟩ := append_singleton_inj heq2
          refine ⟨pre, m, post', hl, fun hmem => hpost ?_⟩
          rw [List.concat_eq_append]
          exact List.mem_append.mpr (Or.inl hmem)

/-- Claim C4: on an enabled `LogBuffer`, `Print` sets the dirty flag;
`ReadAll` clears it; `HasChanged` reports it without modifying anything;
and along any sequence of print/read-all/has-changed operations from a
fresh buffer, the flag is `true` exactly when at least one `Print` has
occurred after the last `ReadAll`. -/
theorem C4_dirty_flag (b : LogBuffer) (msg : String) (n : Int) (ops : List LBOp)
    (he : b.enabled = true) :
    (b.Print msg).changed = true ∧
    (b.ReadAll).2.changed = false ∧
    ((b.HasChanged).1 = b.changed ∧ (b.HasChanged).2 = b) ∧
    (((NewLogBuffer n).runOps ops).changed = true ↔
      ∃ pre m post, ops = pre ++ LBOp.print m :: post ∧ LBOp.readAll ∉ post) :=
  ⟨by simp [LogBuffer.Print, he], rfl, ⟨rfl, rfl⟩, LogBuffer.runOps_changed n ops⟩

/-- Witness for `C4_dirty_flag`: a print on a fresh (enabled) buffer
sets the flag. -/
theorem C4_witness : ((NewLogBuffer 3).Print "x").changed = true :=
  (C4_dirty_flag (NewLogBuffer 3) "x" 3 [] rfl).1

/-! ## Claim C8 -/

lemma New_buffered_spec (nm baseDir : String) (prev : List String) :
    New nm baseDir .BufferedFile prev
      = .buffered
          { baseDir := baseDir, buffer := [initMarker nm], count := 1,
            enabled := true, file := prev, fileOpen := true,
            flushSec := DefaultFlushIntervalSec, hasClosed := false,
            name := nm } := by
  simp [New, BufferedLog.Print, BufferedLog.print,
    show (0 + 1) % uintMod = 1 from by decide]

lemma New_direct_spec (nm baseDir : String) (prev : List String) :
    New nm baseDir .DirectFile prev
      = .direct
          { baseDir := baseDir, enabled := true,
            file := prev ++ [initMarker nm], fileOpen := true,
            name := nm } := by
  simp [New, DirectLog.Print, DirectLog.print]

/-- Claim C8: `Rotate` closes the given logger, moves its backing file
to the date-stamped path in the `old/` archive subdirectory, and returns
a new logger of the same kind at the original base path and name; for a
buffered logger the new instance inherits the old one's flush
interval.  (For the buffered kind, `Close` must find the instance not
yet closed with an open handle, else the close path panics.) -/
theorem C8_rotate (l : FLog) (y mo d : Nat)
    (h : ∀ bb, l = .buffered bb → bb.hasClosed = false ∧ bb.fileOpen = true) :
    ∃ nl archContents closed,
      Rotate l y mo d = some (nl, archivePath l.BaseDir l.Name y mo d, archContents) ∧
      l.Close = some closed ∧
      archContents = closed.fileContents ∧
      nl.kind = l.kind ∧
      nl.Name = l.Name ∧
      nl.BaseDir = l.BaseDir ∧
      (l.kind = .BufferedFile → nl.flushSec = l.flushSec) := by
  cases l with
  | buffered bb =>
    obtain ⟨hc, hf⟩ := h bb rfl
    have hclose := BufferedLog.close_spec bb hc hf
    have hflcl : FLog.Close (.buffered bb)
        = some (.buffered
            { bb with hasClosed := true, fileOpen := false, count := 0,
                      buffer := [],
                      file := bb.file ++ (bb.buffer ++ [closeMarker bb.name]) }) := by
      simp [FLog.Close, hclose]
    refine ⟨.buffered
        { baseDir := bb.baseDir, buffer := [initMarker bb.name], count := 1,
          enabled := true, file := [], fileOpen := true,
          flushSec := bb.flushSec, hasClosed := false, name := bb.name },
      bb.file ++ (bb.buffer ++ [closeMarker bb.name]),
      .buffered
        { bb with hasClosed := true, fileOpen := false, count := 0,
                  buffer := [],
                  file := bb.file ++ (bb.buffer ++ [closeMarker bb.name]) },
      ?_, hflcl, rfl, rfl, rfl, rfl, fun _ => rfl⟩
    simp only [Rotate, hflcl, FLog.Name, FLog.BaseDir, FLog.kind,
      New_buffered_spec, FLog.fileContents]
  | direct dd =>
    have hflcl : FLog.Close (.direct dd) = some (.direct dd.Close) := rfl
    refine ⟨.direct
        { baseDir := dd.baseDir, enabled := true,
          file := [initMarker dd.name], fileOpen := true, name := dd.name },
      dd.Close.file, .direct dd.Close,
      ?_, hflcl, rfl, rfl, rfl, rfl, fun hk => ?_⟩
    · simp only [Rotate, hflcl, FLog.Name, FLog.BaseDir, FLog.kind,
        New_direct_spec, FLog.fileContents, List.nil_append]
    · exact absurd hk (by simp [FLog.kind])

/-- Witness for `C8_rotate`: rotating a freshly created buffered logger
(after setting its flush interval) on 2015-03-07. -/
theorem C8_witness :
    ∃ nl archContents closed,
      Rotate (.buffered sampleBuffered) 2015 3 7
        = some (nl, archivePath (FLog.buffered sampleBuffered).BaseDir
                      (FLog.buffered sampleBuffered).Name 2015 3 7, archContents) ∧
      (FLog.buffered sampleBuffered).Close = some closed ∧
      archContents = closed.fileContents ∧
      nl.kind = (FLog.buffered sampleBuffered).kind ∧
      nl.Name = (FLog.buffered sampleBuffered).Name ∧
      nl.BaseDir = (FLog.buffered sampleBuffered).BaseDir ∧
      ((FLog.buffered sampleBuffered).kind = .BufferedFile →
        nl.flushSec = (FLog.buffered sampleBuffered).flushSec) :=
  C8_rotate (.buffered sampleBuffered) 2015 3 7
    (fun bb hb => by cases hb; exact ⟨rfl, rfl⟩)

/-! ## Claim C10 -/

lemma data_ne_nil {s : String} (h : s ≠ "") : s.data ≠ [] := by
  intro hd
  exact h (String.ext_iff.mpr (by rw [hd]))

lemma endsWithNewline_append (s t : String) (ht : t ≠ "") :
    endsWithNewline (s ++ t) = endsWithNewline t := by
  unfold endsWithNewline
  rw [String.data_append, List.getLast?_append_of_ne_nil _ (data_ne_nil ht)]

lemma render_line_ends_newline (head msg : String) (hm : msg ≠ "") :
    endsWithNewline
      (head ++ msg ++ (if endsWithNewline msg then "" else "\n")) = true := by
  by_cases he : endsWithNewline msg
  · rw [if_pos he, String.append_empty, endsWithNewline_append _ _ hm]
    exact he
  · rw [if_neg he, endsWithNewline_append _ _ (by decide : ("\n" : String) ≠ "")]
    decide

/-- Claim C10: both renderers (`LogMsg.String`, embedded as
`LogMsg.render`, and `FormatLogMsg`) are total exactly on non-empty
messages.  For a non-empty message the rendered line is
newline-terminated, with one newline appended exactly when the message
does not already end in one; for the empty message the index
`msg[len(msg)-1]` is out of range and the call panics (`none`). -/
theorem C10_render_newline (m : LogMsg) (ts nm fileInfo msg : String) :
    (m.message ≠ "" → ∃ r, m.render = some r ∧ endsWithNewline r = true ∧
      r = m.timestamp ++ " [" ++ m.name.toUpper ++ "]" ++ m.locString ++ " "
          ++ m.message ++ (if endsWithNewline m.message then "" else "\n")) ∧
    (m.message = "" → m.render = none) ∧
    (msg ≠ "" → ∃ r, FormatLogMsg ts nm fileInfo msg = some r ∧
      endsWithNewline r = true ∧
      r = ts ++ " [" ++ nm.toUpper ++ "]" ++ fileInfo ++ " " ++ msg
          ++ (if endsWithNewline msg then "" else "\n")) ∧
    (msg = "" → FormatLogMsg ts nm fileInfo msg = none) := by
  refine ⟨fun hm => ⟨_, ?_, render_line_ends_newline _ _ hm, rfl⟩,
    fun hm => ?_,
    fun hm => ⟨_, ?_, render_line_ends_newline _ _ hm, rfl⟩,
    fun hm => ?_⟩
  · simp only [LogMsg.render, if_neg hm]
  · simp only [LogMsg.render, if_pos hm]
  · simp only [FormatLogMsg, if_neg hm]
  · simp only [FormatLogMsg, if_pos hm]

/-- Witness for `C10_render_newline`: both renderers succeed on the
message `hi` and produce a newline-terminated line, and both panic on
the empty message. -/
theorem C10_witness :
    (∃ r, ({ timestamp := "t", name := "n", file := "", line := 0,
             message := "hi" } : LogMsg).render = some r ∧
       endsWithNewline r = true) ∧
    ({ timestamp := "t", name := "n", file := "", line := 0,
       message := "" } : LogMsg).render = none ∧
    (∃ r, FormatLogMsg "t" "n" "" "hi" = some r ∧ endsWithNewline r = true) ∧
    FormatLogMsg "t" "n" "" "" = none := by
  obtain ⟨h1, -, h3, -⟩ := C10_render_newline
    { timestamp := "t", name := "n", file := "", line := 0, message := "hi" }
    "t" "n" "" "hi"
  obtain ⟨-, h2, -, h4⟩ := C10_render_newline
    { timestamp := "t", name := "n", file := "", line := 0, message := "" }
    "t" "n" "" ""
  obtain ⟨r1, hr1, he1, -⟩ := h1 (by decide)
  obtain ⟨r2, hr2, he2, -⟩ := h3 (by decide)
  exact ⟨⟨r1, hr1, he1⟩, h2 rfl, ⟨r2, hr2, he2⟩, h4 rfl⟩
